import Mathlib

/-!
Shallow embedding of the address-resolution and connection-establishment
layer of the memipnet package (memipnet.go), together with the Go standard
library routines it calls (net.SplitHostPort, strconv.ParseInt, net.ParseIP,
net.IP.To4, net.IP.To16).  Go byte strings are modelled as lists of
characters (all inputs relevant to resolution are ASCII), net.IP values as
lists of byte values where the empty list plays the role of Go's nil IP.
-/

deriving instance DecidableEq for Except

namespace Memipnet

/-- Go strings, modelled as lists of characters. -/
abbrev GoStr := List Char

/-- Go net.IP: a byte slice; the empty list models Go's nil IP. -/
abbrev IP := List Nat

/-- Index of the first occurrence of a byte in a string (Go bytealg.IndexByteString). -/
def idxOf? (b : Char) (s : GoStr) : Option Nat :=
  s.findIdx? (fun c => c = b)

/-- Index of the last occurrence of a byte in a string (Go net.last). -/
def lastIdxOf? (b : Char) (s : GoStr) : Option Nat :=
  match idxOf? b s.reverse with
  | none => none
  | some j => some (s.length - 1 - j)

/-- Error values of the net package that the resolution layer can produce:
net.AddrError carries a message and the offending address text;
net.UnknownNetworkError carries the network token. -/
inductive NetError
  | addrError (err : GoStr) (addr : GoStr)
  | unknownNetworkError (network : GoStr)
deriving Repr, DecidableEq

def missingPortMsg : GoStr := "missing port in address".toList

def tooManyColonsMsg : GoStr := "too many colons in address".toList

/-- Final bracket/garbage checks of net.SplitHostPort: after extracting host
and the port position, any stray square bracket at or after positions j / k
is rejected. -/
def splitHostPortFinish (hostPort host : GoStr) (i j k : Nat) :
    Except NetError (GoStr × GoStr) :=
  if (idxOf? '[' (hostPort.drop j)).isSome then
    .error (.addrError "unexpected '[' in address".toList hostPort)
  else if (idxOf? ']' (hostPort.drop k)).isSome then
    .error (.addrError "unexpected ']' in address".toList hostPort)
  else
    .ok (host, hostPort.drop (i + 1))

/-- Model of Go net.SplitHostPort: splits "host:port" or "[host]:port" into
host and port text. -/
def splitHostPort (hostPort : GoStr) : Except NetError (GoStr × GoStr) :=
  match lastIdxOf? ':' hostPort with
  | none => .error (.addrError missingPortMsg hostPort)
  | some i =>
    if hostPort.head? = some '[' then
      match idxOf? ']' hostPort with
      | none => .error (.addrError "missing ']' in address".toList hostPort)
      | some e =>
        if e + 1 = hostPort.length then
          .error (.addrError missingPortMsg hostPort)
        else if e + 1 = i then
          splitHostPortFinish hostPort ((hostPort.drop 1).take (e - 1)) i 1 (e + 1)
        else if hostPort.get? (e + 1) = some ':' then
          .error (.addrError tooManyColonsMsg hostPort)
        else
          .error (.addrError missingPortMsg hostPort)
    else
      if (idxOf? ':' (hostPort.take i)).isSome then
        .error (.addrError tooManyColonsMsg hostPort)
      else
        splitHostPortFinish hostPort (hostPort.take i) i 0 0

/-- Model of Go strconv.ParseInt(s, 10, 0) on a 64-bit platform: an optional
sign followed by decimal digits; empty digits, other characters, or values
outside the int64 range give an error (modelled as none). -/
def parseInt64 (s : GoStr) : Option Int :=
  match s with
  | [] => none
  | c :: rest =>
    let neg := c = '-'
    let digits := if c = '-' ∨ c = '+' then rest else s
    if digits = [] then none
    else if ¬ digits.all Char.isDigit then none
    else
      let n : Nat := digits.foldl (fun acc d => acc * 10 + (d.toNat - 48)) 0
      if neg then
        if n ≤ 2 ^ 63 then some (-(n : Int)) else none
      else
        if n ≤ 2 ^ 63 - 1 then some (n : Int) else none

/-- Model of netip parseIPv4Fields: parses dotted-decimal text into four byte
values; rejects leading zeros, octets above 255, empty fields, too many or
too few fields, and any character other than digits and dots.  The state is
the value of the current octet, the number of completed octets, and the
number of digits seen in the current octet. -/
def parseIPv4Fields (val pos digLen : Nat) (acc : List Nat) :
    GoStr → Option (List Nat)
  | [] => if pos < 3 then none else some (acc ++ [val])
  | c :: rest =>
    if c.isDigit then
      if digLen = 1 ∧ val = 0 then none
      else
        let v := val * 10 + (c.toNat - 48)
        if v > 255 then none
        else parseIPv4Fields v pos (digLen + 1) acc rest
    else if c = '.' then
      if digLen = 0 ∨ rest = [] then none
      else if pos = 3 then none
      else parseIPv4Fields 0 (pos + 1) 0 (acc ++ [val]) rest
    else none

/-- Model of netip.parseIPv4: a dotted-decimal IPv4 literal as four bytes. -/
def parseIPv4 (s : GoStr) : Option (List Nat) :=
  parseIPv4Fields 0 0 0 [] s

def isHexDigitChar (c : Char) : Bool :=
  (('0' ≤ c ∧ c ≤ '9') ∨ ('a' ≤ c ∧ c ≤ 'f') ∨ ('A' ≤ c ∧ c ≤ 'F') : Prop)

def hexDigitVal (c : Char) : Nat :=
  if '0' ≤ c ∧ c ≤ '9' then c.toNat - 48
  else if 'a' ≤ c ∧ c ≤ 'f' then c.toNat - 87
  else c.toNat - 55

/-- Consume the leading hexadecimal group of an IPv6 literal: returns the
group value, the number of digits consumed, and the rest of the string, or
none when a fifth hex digit appears (Go rejects groups of more than four
digits before reading further). -/
def takeHexGroup (acc count : Nat) : GoStr → Option (Nat × Nat × GoStr)
  | [] => some (acc, count, [])
  | c :: rest =>
    if isHexDigitChar c then
      if count ≥ 4 then none
      else takeHexGroup (acc * 16 + hexDigitVal c) (count + 1) rest
    else some (acc, count, c :: rest)

/-- End of netip.parseIPv6's main loop: any leftover text is trailing
garbage; fewer than 16 bytes requires an ellipsis to expand with zeros; a
full 16 bytes together with an ellipsis is rejected because the ellipsis
must stand for at least one zero group. -/
def finishIPv6 (s : GoStr) (bytes : List Nat) (ell : Option Nat) :
    Option (List Nat) :=
  if s ≠ [] then none
  else if bytes.length < 16 then
    match ell with
    | none => none
    | some e => some (bytes.take e ++ List.replicate (16 - bytes.length) 0 ++ bytes.drop e)
  else
    match ell with
    | some _ => none
    | none => some bytes

/-- Main loop of netip.parseIPv6: repeatedly parses a hex group followed by
a colon, tracking parsed bytes and the position of the "::" ellipsis; a dot
after a hex group switches to an embedded IPv4 parse of the remaining text;
after a group, the string must end or continue with a colon and more text,
a second colon marking the single permitted ellipsis.  The fuel argument
bounds recursion by the input length. -/
def parseIPv6Loop : Nat → GoStr → List Nat → Option Nat → Option (List Nat)
  | 0, _, _, _ => none
  | fuel + 1, s, bytes, ell =>
    if bytes.length ≥ 16 then finishIPv6 s bytes ell
    else
      match takeHexGroup 0 0 s with
      | none => none
      | some (acc, off, rest) =>
        if off = 0 then none
        else if rest.head? = some '.' then
          if ell = none ∧ bytes.length ≠ 12 then none
          else if bytes.length + 4 > 16 then none
          else
            match parseIPv4Fields 0 0 0 [] s with
            | none => none
            | some v4 => finishIPv6 [] (bytes ++ v4) ell
        else
          let bytes2 := bytes ++ [acc / 256, acc % 256]
          match rest with
          | [] => finishIPv6 [] bytes2 ell
          | c :: rest1 =>
            if c ≠ ':' then none
            else
              match rest1 with
              | [] => none
              | c2 :: rest2 =>
                if c2 = ':' then
                  if ell.isSome then none
                  else if rest2 = [] then finishIPv6 [] bytes2 (some bytes2.length)
                  else parseIPv6Loop fuel rest2 bytes2 (some bytes2.length)
                else parseIPv6Loop fuel rest1 bytes2 ell

/-- Model of netip.parseIPv6 as used through net.ParseIP: a zone suffix
("%zone") always yields failure (netip rejects an empty zone and net.ParseIP
rejects any nonempty one), a leading "::" sets the ellipsis at the start,
and the main loop parses the remainder. -/
def parseIPv6 (s : GoStr) : Option (List Nat) :=
  if (idxOf? '%' s).isSome then none
  else
    match s with
    | ':' :: ':' :: rest =>
      if rest = [] then some (List.replicate 16 0)
      else parseIPv6Loop (rest.length + 1) rest [] (some 0)
    | _ => parseIPv6Loop (s.length + 1) s [] none

/-- The 12-byte mapping v4-in-v6 prefix of net.IP (0..0 ff ff). -/
def v4InV6 : List Nat := List.replicate 10 0 ++ [255, 255]

/-- Model of Go net.ParseIP: scan for the first '.', ':' or '%'; a dot means
an IPv4 literal (returned in 16-byte IPv4-mapped form, as netip As16 does),
a colon means an IPv6 literal, anything else is not an IP.  The empty list
models Go's nil result. -/
def parseIP (s : GoStr) : IP :=
  match s.find? (fun c => c = '.' ∨ c = ':' ∨ c = '%') with
  | some c =>
    if c = '.' then
      match parseIPv4 s with
      | some v4 => v4InV6 ++ v4
      | none => []
    else if c = ':' then
      match parseIPv6 s with
      | some v6 => v6
      | none => []
    else []
  | none => []

/-- Model of Go net.IP.To4: a 4-byte address as is; a 16-byte IPv4-mapped
address reduced to its 4 final bytes; anything else nil. -/
def IP.to4 (ip : IP) : IP :=
  if ip.length = 4 then ip
  else if ip.length = 16 ∧ ip.take 12 = v4InV6 then ip.drop 12
  else []

/-- Model of Go net.IP.To16: a 4-byte address in IPv4-mapped 16-byte form; a
16-byte address as is; anything else nil. -/
def IP.to16 (ip : IP) : IP :=
  if ip.length = 4 then v4InV6 ++ ip
  else if ip.length = 16 then ip
  else []

/-- gvisor header.IPv4ProtocolNumber. -/
def ipv4ProtocolNumber : Nat := 0x0800

/-- gvisor header.IPv6ProtocolNumber. -/
def ipv6ProtocolNumber : Nat := 0x86dd

/-- memipnet's ipv4Loopback constant: the 4 raw bytes of 127.0.0.1. -/
def ipv4Loopback : IP := [127, 0, 0, 1]

/-- memipnet's ipv6Loopback constant: the 16 raw bytes of ::1. -/
def ipv6Loopback : IP := List.replicate 15 0 ++ [1]

def localhostStr : GoStr := "localhost".toList

def invalidPortMsg : GoStr := "invalid port".toList

def invalidIPv4Msg : GoStr := "invalid IPv4 address".toList

def invalidIPMsg : GoStr := "invalid IP address".toList

/-- Model of memipnet's parseProtocolIPPort: split the address, parse and
range-check the port, then dispatch on the network token against the
expected protocol tag pfx ("tcp" or "udp"): pfx+"4" parses the host (after
localhost substitution) via ParseIP(host).To4(); the bare pfx returns the
dual-stack localhost pair for host "localhost" and otherwise falls through
to the pfx+"6" arm, which parses via ParseIP(host).To16(); any other token
is an unknown network error.  On success it returns the network protocol
number, the candidate IP list, and the port. -/
def parseProtocolIPPort (pfx network address : GoStr) :
    Except NetError (Nat × List IP × Nat) :=
  match splitHostPort address with
  | .error e => .error e
  | .ok (host, portText) =>
    match parseInt64 portText with
    | none => .error (.addrError invalidPortMsg address)
    | some portNum =>
      if 0 > portNum ∨ portNum > 65535 then
        .error (.addrError invalidPortMsg address)
      else if network = pfx ++ ['4'] then
        let host4 := if host = localhostStr then "127.0.0.1".toList else host
        let ip := IP.to4 (parseIP host4)
        if ip = [] then .error (.addrError invalidIPv4Msg address)
        else .ok (ipv4ProtocolNumber, [ip], portNum.toNat)
      else if network = pfx then
        if host = localhostStr then
          .ok (ipv6ProtocolNumber, [IP.to16 ipv6Loopback, IP.to16 ipv4Loopback],
            portNum.toNat)
        else
          let ip := IP.to16 (parseIP host)
          if ip = [] then .error (.addrError invalidIPMsg address)
          else .ok (ipv6ProtocolNumber, [ip], portNum.toNat)
      else if network = pfx ++ ['6'] then
        let host6 := if host = localhostStr then "::1".toList else host
        let ip := IP.to16 (parseIP host6)
        if ip = [] then .error (.addrError invalidIPMsg address)
        else .ok (ipv6ProtocolNumber, [ip], portNum.toNat)
      else .error (.unknownNetworkError network)

/-- Go net.Addr values the resolution layer can place in a net.OpError; the
code only ever builds net.TCPAddr values, but net.UDPAddr exists in the net
package and is included so that the choice is observable. -/
inductive NetAddr
  | tcpAddr (ip : IP) (port : Nat)
  | udpAddr (ip : IP) (port : Nat)
deriving Repr, DecidableEq

/-- The Err field of a net.OpError as built by the code under study: a
resolution-phase NetError, a propagated capability error (dial paths wrap
the error value directly), or the string re-wrapping fmt.Errorf of the
listen paths; the Option is none when the wrapped error variable is nil. -/
inductive UnderlyingErr
  | parse (e : NetError)
  | cap (e : Option GoStr)
  | capFmt (e : Option GoStr)
deriving Repr, DecidableEq

/-- Model of Go net.OpError as built by Listen, ListenPacket and
DialContext. -/
structure OpError where
  op : GoStr
  net : GoStr
  addr : Option NetAddr
  err : UnderlyingErr
deriving Repr, DecidableEq

/-- A Stack, modelled by the capability calls the resolution layer makes
into the gvisor stack: gonet.ListenTCP, gonet.DialContextTCP and
gonet.DialUDP (the latter takes optional local and remote addresses and is
used both by ListenPacket, with only a local address, and by the UDP arm of
DialContext, with only a remote address).  Each call receives the network
protocol number, the address bytes and the port; Ctx is the type of
contexts, and L, C, P the handle types for TCP listeners, TCP connections
and UDP endpoints. -/
structure Stack (Ctx L C P : Type) where
  listenTCP : Nat → IP → Nat → Except GoStr L
  dialContextTCP : Ctx → Nat → IP → Nat → Except GoStr C
  dialUDP : Nat → Option (IP × Nat) → Option (IP × Nat) → Except GoStr P

/-- The candidate-iteration loop shared by Listen, ListenPacket and
DialContext: `for _, ip = range ips { h, err = f(ip); if err == nil return h }`,
carrying the last attempted address and last error out of the loop (both
start as Go zero values: nil IP and nil error). -/
def tryEach {α : Type} (f : IP → Except GoStr α) :
    List IP → IP → Option GoStr → Except (IP × Option GoStr) α
  | [], lastIp, lastErr => .error (lastIp, lastErr)
  | ip :: rest, _, _ =>
    match f ip with
    | .ok a => .ok a
    | .error e => tryEach f rest ip (some e)

def tcpToken : GoStr := "tcp".toList

def udpToken : GoStr := "udp".toList

def listenOp : GoStr := "listen".toList

def dialOp : GoStr := "dial".toList

/-- Model of Stack.Listen: resolve in TCP mode; on resolution failure wrap
the error in an OpError with no address; otherwise try each candidate with
gonet.ListenTCP, returning the first success, and on exhaustion wrap the
last error (via fmt.Errorf) with a TCPAddr naming the last candidate. -/
def Stack.listen {Ctx L C P : Type} (s : Stack Ctx L C P) (ctx : Ctx)
    (network address : GoStr) : Except OpError L :=
  match parseProtocolIPPort tcpToken network address with
  | .error e => .error ⟨listenOp, network, none, .parse e⟩
  | .ok (protocol, ips, port) =>
    match tryEach (fun ip => s.listenTCP protocol ip port) ips [] none with
    | .ok l => .ok l
    | .error (ip, e) =>
      .error ⟨listenOp, network, some (.tcpAddr ip port), .capFmt e⟩

/-- Model of Stack.ListenPacket: resolve in UDP mode; on resolution failure
wrap the error with no address; otherwise try each candidate with
gonet.DialUDP bound locally, returning the first success, and on exhaustion
wrap the last error with a TCPAddr naming the last candidate. -/
def Stack.listenPacket {Ctx L C P : Type} (s : Stack Ctx L C P) (ctx : Ctx)
    (network address : GoStr) : Except OpError P :=
  match parseProtocolIPPort udpToken network address with
  | .error e => .error ⟨listenOp, network, none, .parse e⟩
  | .ok (protocol, ips, port) =>
    match tryEach (fun ip => s.dialUDP protocol (some (ip, port)) none) ips [] none with
    | .ok c => .ok c
    | .error (ip, e) =>
      .error ⟨listenOp, network, some (.tcpAddr ip port), .capFmt e⟩

/-- Model of Stack.DialContext: resolve in TCP mode; a non-UnknownNetwork
resolution failure is returned at once; on success the candidates are tried
with gonet.DialContextTCP.  When the TCP resolution fails with an unknown
network error, resolution is retried in UDP mode, whose failure is returned
wrapped, and whose candidates are tried with gonet.DialUDP with only a
remote address.  The connection is a TCP handle (inl) or a UDP handle
(inr). -/
def Stack.dialContext {Ctx L C P : Type} (s : Stack Ctx L C P) (ctx : Ctx)
    (network address : GoStr) : Except OpError (C ⊕ P) :=
  match parseProtocolIPPort tcpToken network address with
  | .ok (protocol, ips, port) =>
    match tryEach (fun ip => s.dialContextTCP ctx protocol ip port) ips [] none with
    | .ok c => .ok (.inl c)
    | .error (ip, e) =>
      .error ⟨dialOp, network, some (.tcpAddr ip port), .cap e⟩
  | .error e =>
    match e with
    | .unknownNetworkError _ =>
      match parseProtocolIPPort udpToken network address with
      | .error e2 => .error ⟨dialOp, network, none, .parse e2⟩
      | .ok (protocol, ips, port) =>
        match tryEach (fun ip => s.dialUDP protocol none (some (ip, port))) ips [] none with
        | .ok c => .ok (.inr c)
        | .error (ip, e2) =>
          .error ⟨dialOp, network, some (.tcpAddr ip port), .cap e2⟩
    | _ => .error ⟨dialOp, network, none, .parse e⟩

example : parseIP "127.0.0.1".toList = v4InV6 ++ [127, 0, 0, 1] := by decide
example : parseIP "::1".toList = List.replicate 15 0 ++ [1] := by decide
example : parseIP "::".toList = List.replicate 16 0 := by decide
example : parseIP "::ffff:127.0.0.1".toList = v4InV6 ++ [127, 0, 0, 1] := by decide
example : parseIP "1:2:3:4:5:6:7:8".toList = [0,1,0,2,0,3,0,4,0,5,0,6,0,7,0,8] := by decide
example : parseIP "abc".toList = [] := by decide
example : parseIP "1.2.3.4.5".toList = [] := by decide
example : parseIP "1.2.3".toList = [] := by decide
example : parseIP "01.2.3.4".toList = [] := by decide
example : parseIP "256.2.3.4".toList = [] := by decide
example : parseIP "1:2:3:4:5:6:7:8:9".toList = [] := by decide
example : parseIP "1::2::3".toList = [] := by decide
example : parseIP "fe80::1%eth0".toList = [] := by decide
example : parseIP "12345::".toList = [] := by decide
example : IP.to4 (parseIP "::ffff:1.2.3.4".toList) = [1, 2, 3, 4] := by decide
example : IP.to4 (parseIP "::1".toList) = [] := by decide
example : IP.to16 (parseIP "127.0.0.1".toList) = v4InV6 ++ [127, 0, 0, 1] := by decide

example : parseProtocolIPPort tcpToken tcpToken "127.0.0.1:80".toList =
    .ok (ipv6ProtocolNumber, [v4InV6 ++ [127, 0, 0, 1]], 80) := by decide
example : parseProtocolIPPort tcpToken "tcp4".toList "[::ffff:127.0.0.1]:80".toList =
    .ok (ipv4ProtocolNumber, [[127, 0, 0, 1]], 80) := by decide
example : parseProtocolIPPort tcpToken "tcp4".toList "localhost:80".toList =
    .ok (ipv4ProtocolNumber, [[127, 0, 0, 1]], 80) := by decide
example : parseProtocolIPPort tcpToken tcpToken "localhost:80".toList =
    .ok (ipv6ProtocolNumber, [ipv6Loopback, v4InV6 ++ [127, 0, 0, 1]], 80) := by decide
example : parseProtocolIPPort tcpToken "tcp4".toList "1.2.3.4:+80".toList =
    .ok (ipv4ProtocolNumber, [[1, 2, 3, 4]], 80) := by decide
example : parseProtocolIPPort tcpToken "tcp6".toList "host:80".toList =
    .error (.addrError invalidIPMsg "host:80".toList) := by decide
example : parseProtocolIPPort tcpToken "foo".toList "host:80".toList =
    .error (.unknownNetworkError "foo".toList) := by decide
example : parseProtocolIPPort tcpToken "foo".toList "host:70000".toList =
    .error (.addrError invalidPortMsg "host:70000".toList) := by decide

example : splitHostPort "abc:80".toList = .ok ("abc".toList, "80".toList) := by decide
example : splitHostPort "[::1]:80".toList = .ok ("::1".toList, "80".toList) := by decide
example : splitHostPort "127.0.0.1".toList =
    .error (.addrError missingPortMsg "127.0.0.1".toList) := by decide
example : splitHostPort "a:b:80".toList =
    .error (.addrError tooManyColonsMsg "a:b:80".toList) := by decide
example : parseInt64 "+80".toList = some 80 := by decide
example : parseInt64 "-1".toList = some (-1) := by decide
example : parseInt64 "80a".toList = none := by decide
example : parseInt64 "70000".toList = some 70000 := by decide

theorem self_ne_append_singleton (l : List Char) (c : Char) : l ≠ l ++ [c] := by
  intro h
  have hlen := congrArg List.length h
  simp at hlen

theorem append_singleton_ne (l : List Char) {c d : Char} (h : c ≠ d) :
    l ++ [c] ≠ l ++ [d] := by
  intro he
  apply h
  simpa using he

/-- C1: the spec says a bare "tcp" resolution of a non-"localhost" host (and
any prefix+"6" resolution) parses the host strictly as an IPv6 literal, so a
bare "tcp" dial to the literal IPv4 address "127.0.0.1" would be rejected as
an invalid IPv6 address.  In the code, however, the host is parsed with
ParseIP(host).To16(), which accepts an IPv4 literal and maps it: resolving
network "tcp" for address "127.0.0.1:80" succeeds with the IPv4-mapped
address, refuting the claim. -/
theorem C1_counterexample :
    parseProtocolIPPort tcpToken tcpToken "127.0.0.1:80".toList =
      .ok (ipv6ProtocolNumber, [v4InV6 ++ [127, 0, 0, 1]], 80) := by decide

/-- C1 (amended): for a bare-prefix resolution with a non-"localhost" host,
or a prefix+"6" resolution with a non-"localhost" host, resolution fails
exactly when the host parses as neither an IPv4 nor an IPv6 literal, and the
failure is tagged "invalid IP address" (not "invalid IPv6 address"). -/
theorem C1_corrected (pfx network address host portText : GoStr) (p : Int)
    (hsplit : splitHostPort address = .ok (host, portText))
    (hport : parseInt64 portText = some p)
    (hrange : ¬ (0 > p ∨ p > 65535))
    (hnet : network = pfx ∨ network = pfx ++ ['6'])
    (hhost : host ≠ localhostStr)
    (hbad : parseIP host = []) :
    parseProtocolIPPort pfx network address =
      .error (.addrError invalidIPMsg address) := by
  have h4 : ¬ network = pfx ++ ['4'] := by
    rcases hnet with h | h
    · rw [h]; exact self_ne_append_singleton pfx '4'
    · rw [h]; exact append_singleton_ne pfx (by decide)
  simp only [parseProtocolIPPort, hsplit, hport]
  rw [if_neg hrange, if_neg h4]
  rcases hnet with h | h
  · rw [if_pos h, if_neg hhost, hbad]
    simp [IP.to16]
  · have hnp : ¬ network = pfx := by
      rw [h]; exact fun he => self_ne_append_singleton pfx '6' he.symm
    rw [if_neg hnp, if_pos h, if_neg hhost, hbad]
    simp [IP.to16]

theorem C1_witness :
    parseProtocolIPPort tcpToken tcpToken "abc:80".toList =
      .error (.addrError invalidIPMsg "abc:80".toList) :=
  C1_corrected tcpToken tcpToken "abc:80".toList "abc".toList "80".toList 80
    (by decide) (by decide) (by decide) (Or.inl rfl) (by decide) (by decide)

/-- C2: the spec says any port text containing a non-digit character makes
resolution fail with "invalid port".  The code parses the port with
strconv.ParseInt, which accepts an optional leading sign: the address
"1.2.3.4:+80", whose port text "+80" contains the non-digit '+', resolves
successfully, refuting the claim. -/
theorem C2_counterexample :
    splitHostPort "1.2.3.4:+80".toList = .ok ("1.2.3.4".toList, "+80".toList) ∧
    ('+' ∈ "+80".toList ∧ ¬ ('+'.isDigit : Prop)) ∧
    parseProtocolIPPort tcpToken "tcp4".toList "1.2.3.4:+80".toList =
      .ok (ipv4ProtocolNumber, [[1, 2, 3, 4]], 80) := by decide

/-- C2 (amended): for every address whose port text is not parseable as an
optionally signed base-10 int64, or parses to a value outside [0, 65535],
resolution fails with a failure tagged "invalid port", for every prefix,
network token and host. -/
theorem C2_corrected (pfx network address host portText : GoStr)
    (hsplit : splitHostPort address = .ok (host, portText))
    (hbad : parseInt64 portText = none ∨
      ∃ p, parseInt64 portText = some p ∧ (0 > p ∨ p > 65535)) :
    parseProtocolIPPort pfx network address =
      .error (.addrError invalidPortMsg address) := by
  simp only [parseProtocolIPPort, hsplit]
  rcases hbad with h | ⟨p, hp, hout⟩
  · rw [h]
  · rw [hp]
    simp only [if_pos hout]

theorem C2_witness :
    parseProtocolIPPort tcpToken tcpToken "h:70000".toList =
      .error (.addrError invalidPortMsg "h:70000".toList) :=
  C2_corrected tcpToken tcpToken "h:70000".toList "h".toList "70000".toList
    (by decide) (Or.inr ⟨70000, by decide, by decide⟩)

/-- C3: the spec says a prefix+"4" resolution parses the host strictly as an
IPv4 literal, failing on anything else.  The code parses with
ParseIP(host).To4(), which also accepts IPv4-mapped IPv6 literals: resolving
network "tcp4" for address "[::ffff:127.0.0.1]:80", whose host is an IPv6
literal and not an IPv4 literal, succeeds, refuting the claim. -/
theorem C3_counterexample :
    parseProtocolIPPort tcpToken "tcp4".toList "[::ffff:127.0.0.1]:80".toList =
      .ok (ipv4ProtocolNumber, [[127, 0, 0, 1]], 80) := by decide

/-- C3 (amended): for every prefix+"4" resolution: a host of "localhost" is
substituted with "127.0.0.1" and succeeds with candidate [127.0.0.1]; any
other host is accepted exactly when ParseIP(host).To4() is non-nil (an IPv4
literal or an IPv4-mapped IPv6 literal), failing otherwise with a failure
tagged "invalid IPv4 address"; on success the family is IPv4 and the
candidate list is exactly the one parsed 4-byte address. -/
theorem C3_corrected (pfx network address host portText : GoStr) (p : Int)
    (hsplit : splitHostPort address = .ok (host, portText))
    (hport : parseInt64 portText = some p)
    (hrange : ¬ (0 > p ∨ p > 65535))
    (hnet : network = pfx ++ ['4']) :
    (host = localhostStr →
      parseProtocolIPPort pfx network address =
        .ok (ipv4ProtocolNumber, [[127, 0, 0, 1]], p.toNat)) ∧
    (host ≠ localhostStr → IP.to4 (parseIP host) = [] →
      parseProtocolIPPort pfx network address =
        .error (.addrError invalidIPv4Msg address)) ∧
    (∀ ip, host ≠ localhostStr → IP.to4 (parseIP host) = ip → ip ≠ [] →
      parseProtocolIPPort pfx network address =
        .ok (ipv4ProtocolNumber, [ip], p.toNat)) := by
  refine ⟨fun hl => ?_, fun hl hbad => ?_, fun ip hl hip hne => ?_⟩ <;>
    simp only [parseProtocolIPPort, hsplit, hport] <;>
    rw [if_neg hrange, if_pos hnet]
  · rw [if_pos hl,
      show IP.to4 (parseIP "127.0.0.1".toList) = [127, 0, 0, 1] from by decide,
      if_neg (by decide)]
  · rw [if_neg hl, hbad]
    simp
  · rw [if_neg hl, hip]
    simp only [if_neg hne]

theorem C3_witness :
    parseProtocolIPPort tcpToken "tcp4".toList "localhost:80".toList =
      .ok (ipv4ProtocolNumber, [[127, 0, 0, 1]], 80) :=
  (C3_corrected tcpToken "tcp4".toList "localhost:80".toList localhostStr
    "80".toList 80 (by decide) (by decide) (by decide) (by decide)).1 rfl

/-- C4: for every bare-prefix resolution with host "localhost", resolution
succeeds with the IPv6 family and the candidate list is exactly
[::1, IPv4-mapped 127.0.0.1] in that order. -/
theorem C4_confirmed (pfx network address portText : GoStr) (p : Int)
    (hsplit : splitHostPort address = .ok (localhostStr, portText))
    (hport : parseInt64 portText = some p)
    (hrange : ¬ (0 > p ∨ p > 65535))
    (hnet : network = pfx) :
    parseProtocolIPPort pfx network address =
      .ok (ipv6ProtocolNumber,
        [List.replicate 15 0 ++ [1],
         List.replicate 10 0 ++ [255, 255, 127, 0, 0, 1]], p.toNat) := by
  have h4 : ¬ network = pfx ++ ['4'] := by
    rw [hnet]; exact self_ne_append_singleton pfx '4'
  simp only [parseProtocolIPPort, hsplit, hport]
  rw [if_neg hrange, if_neg h4, if_pos hnet]
  simp only [if_true]
  rw [show IP.to16 ipv6Loopback = List.replicate 15 0 ++ [1] from by decide,
    show IP.to16 ipv4Loopback = List.replicate 10 0 ++ [255, 255, 127, 0, 0, 1] from by decide]

theorem C4_witness :
    parseProtocolIPPort tcpToken tcpToken "localhost:80".toList =
      .ok (ipv6ProtocolNumber,
        [List.replicate 15 0 ++ [1],
         List.replicate 10 0 ++ [255, 255, 127, 0, 0, 1]], 80) :=
  C4_confirmed tcpToken tcpToken "localhost:80".toList "80".toList 80
    (by decide) (by decide) (by decide) rfl

theorem tryEach_first_ok {α : Type} (f : IP → Except GoStr α) (pre : List IP)
    (ip : IP) (post : List IP) (l : α) (lastIp : IP) (lastErr : Option GoStr)
    (hpre : ∀ q ∈ pre, ∃ e, f q = .error e) (hok : f ip = .ok l) :
    tryEach f (pre ++ ip :: post) lastIp lastErr = .ok l := by
  induction pre generalizing lastIp lastErr with
  | nil => simp [tryEach, hok]
  | cons q rest ih =>
    obtain ⟨e, he⟩ := hpre q (by simp)
    simp only [List.cons_append, tryEach, he]
    exact ih q (some e) (fun r hr => hpre r (List.mem_cons_of_mem q hr))

theorem tryEach_all_error {α : Type} (f : IP → Except GoStr α) (ips : List IP)
    (lastIp0 : IP) (lastErr0 : Option GoStr) (lastIp : IP) (e : GoStr)
    (hfail : ∀ q ∈ ips, ∃ e2, f q = .error e2)
    (hlast : ips.getLast? = some lastIp)
    (he : f lastIp = .error e) :
    tryEach f ips lastIp0 lastErr0 = .error (lastIp, some e) := by
  induction ips generalizing lastIp0 lastErr0 with
  | nil => simp at hlast
  | cons q rest ih =>
    cases rest with
    | nil =>
      simp only [List.getLast?_singleton, Option.some.injEq] at hlast
      subst hlast
      simp [tryEach, he]
    | cons r rest2 =>
      obtain ⟨e2, he2⟩ := hfail q (by simp)
      simp only [tryEach, he2]
      exact ih q (some e2) (fun u hu => hfail u (List.mem_cons_of_mem q hu))
        (by simpa using hlast)

/-- A stack whose capability calls all fail with the same error, for
exercising the exhaustion paths. -/
def sampleErrStack : Stack Nat Nat Nat Nat :=
  ⟨fun _ _ _ => .error "closed".toList, fun _ _ _ _ => .error "closed".toList,
   fun _ _ _ => .error "closed".toList⟩

/-- A stack whose capability calls all succeed, for exercising the
first-success paths. -/
def sampleOkStack : Stack Nat Nat Nat Nat :=
  ⟨fun _ _ _ => .ok 7, fun _ _ _ _ => .ok 7, fun _ _ _ => .ok 7⟩

/-- C5: a dial whose TCP-mode resolution fails with a non-unknown-network
error returns that failure at once (wrapped in a "dial" OpError with no
address), and a dial whose TCP-mode resolution fails with an
unknown-network error retries resolution in UDP mode and, when that also
fails, returns the UDP resolution's failure. -/
theorem C5_confirmed {Ctx L C P : Type} (s : Stack Ctx L C P) (ctx : Ctx)
    (network address : GoStr) :
    (∀ e, parseProtocolIPPort tcpToken network address = .error e →
      (∀ n, e ≠ .unknownNetworkError n) →
      s.dialContext ctx network address =
        .error ⟨dialOp, network, none, .parse e⟩) ∧
    (∀ n e2, parseProtocolIPPort tcpToken network address =
        .error (.unknownNetworkError n) →
      parseProtocolIPPort udpToken network address = .error e2 →
      s.dialContext ctx network address =
        .error ⟨dialOp, network, none, .parse e2⟩) := by
  constructor
  · intro e he hne
    cases e with
    | addrError msg a => simp only [Stack.dialContext, he]
    | unknownNetworkError n => exact absurd rfl (hne n)
  · intro n e2 h1 h2
    simp only [Stack.dialContext, h1, h2]

theorem C5_witness :
    sampleErrStack.dialContext 0 tcpToken "h:80".toList =
      .error ⟨dialOp, tcpToken, none,
        .parse (.addrError invalidIPMsg "h:80".toList)⟩ ∧
    sampleErrStack.dialContext 0 "x".toList "h:80".toList =
      .error ⟨dialOp, "x".toList, none,
        .parse (.unknownNetworkError "x".toList)⟩ :=
  ⟨(C5_confirmed sampleErrStack 0 tcpToken "h:80".toList).1
      (.addrError invalidIPMsg "h:80".toList) (by decide)
      (fun n h => NetError.noConfusion h),
   (C5_confirmed sampleErrStack 0 "x".toList "h:80".toList).2
      "x".toList (.unknownNetworkError "x".toList) (by decide) (by decide)⟩

/-- C6: for every network token outside the six recognized ones, given an
address that splits with a valid port, both listen and dial fail with an
unknown-network-family error carrying that exact token. -/
theorem C6_confirmed {Ctx L C P : Type} (s : Stack Ctx L C P) (ctx : Ctx)
    (network address host portText : GoStr) (p : Int)
    (hsplit : splitHostPort address = .ok (host, portText))
    (hport : parseInt64 portText = some p)
    (hrange : ¬ (0 > p ∨ p > 65535))
    (hnot : network ∉ ["tcp".toList, "tcp4".toList, "tcp6".toList,
      "udp".toList, "udp4".toList, "udp6".toList]) :
    s.listen ctx network address =
      .error ⟨listenOp, network, none, .parse (.unknownNetworkError network)⟩ ∧
    s.dialContext ctx network address =
      .error ⟨dialOp, network, none, .parse (.unknownNetworkError network)⟩ := by
  simp only [List.mem_cons, List.not_mem_nil, or_false, not_or] at hnot
  obtain ⟨n1, n2, n3, n4, n5, n6⟩ := hnot
  have htcp : parseProtocolIPPort tcpToken network address =
      .error (.unknownNetworkError network) := by
    simp only [parseProtocolIPPort, hsplit, hport]
    rw [if_neg hrange,
      if_neg (show ¬ network = tcpToken ++ ['4'] by
        rw [show tcpToken ++ ['4'] = "tcp4".toList from by decide]; exact n2),
      if_neg (show ¬ network = tcpToken from n1),
      if_neg (show ¬ network = tcpToken ++ ['6'] by
        rw [show tcpToken ++ ['6'] = "tcp6".toList from by decide]; exact n3)]
  have hudp : parseProtocolIPPort udpToken network address =
      .error (.unknownNetworkError network) := by
    simp only [parseProtocolIPPort, hsplit, hport]
    rw [if_neg hrange,
      if_neg (show ¬ network = udpToken ++ ['4'] by
        rw [show udpToken ++ ['4'] = "udp4".toList from by decide]; exact n5),
      if_neg (show ¬ network = udpToken from n4),
      if_neg (show ¬ network = udpToken ++ ['6'] by
        rw [show udpToken ++ ['6'] = "udp6".toList from by decide]; exact n6)]
  constructor
  · simp only [Stack.listen, htcp]
  · simp only [Stack.dialContext, htcp, hudp]

theorem C6_witness :
    sampleErrStack.listen 0 "foo".toList "h:1".toList =
      .error ⟨listenOp, "foo".toList, none,
        .parse (.unknownNetworkError "foo".toList)⟩ ∧
    sampleErrStack.dialContext 0 "foo".toList "h:1".toList =
      .error ⟨dialOp, "foo".toList, none,
        .parse (.unknownNetworkError "foo".toList)⟩ :=
  C6_confirmed sampleErrStack 0 "foo".toList "h:1".toList "h".toList
    "1".toList 1 (by decide) (by decide) (by decide) (by decide)

/-- C7: for every listen whose resolution succeeds, the candidates are tried
in list order with the first successful bind returned immediately (any
candidate preceded only by failing candidates that itself binds successfully
is the result), and when every candidate fails the operation returns a
failure wrapping only the last underlying error and naming the last-tried
address. -/
theorem C7_confirmed {Ctx L C P : Type} (s : Stack Ctx L C P) (ctx : Ctx)
    (network address : GoStr) (protocol : Nat) (ips : List IP) (port : Nat)
    (hres : parseProtocolIPPort tcpToken network address =
      .ok (protocol, ips, port)) :
    (∀ pre ip post l, ips = pre ++ ip :: post →
      (∀ q ∈ pre, ∃ e, s.listenTCP protocol q port = .error e) →
      s.listenTCP protocol ip port = .ok l →
      s.listen ctx network address = .ok l) ∧
    (∀ lastIp e, (∀ q ∈ ips, ∃ e2, s.listenTCP protocol q port = .error e2) →
      ips.getLast? = some lastIp →
      s.listenTCP protocol lastIp port = .error e →
      s.listen ctx network address =
        .error ⟨listenOp, network, some (.tcpAddr lastIp port),
          .capFmt (some e)⟩) := by
  constructor
  · intro pre ip post l hips hpre hok
    simp only [Stack.listen, hres, hips]
    rw [tryEach_first_ok _ pre ip post l _ _ hpre hok]
  · intro lastIp e hfail hlast he
    simp only [Stack.listen, hres]
    rw [tryEach_all_error _ ips _ _ lastIp e hfail hlast he]

theorem C7_witness :
    sampleOkStack.listen 0 tcpToken "localhost:80".toList = .ok 7 ∧
    sampleErrStack.listen 0 tcpToken "localhost:80".toList =
      .error ⟨listenOp, tcpToken,
        some (.tcpAddr (List.replicate 10 0 ++ [255, 255, 127, 0, 0, 1]) 80),
        .capFmt (some "closed".toList)⟩ :=
  ⟨(C7_confirmed sampleOkStack 0 tcpToken "localhost:80".toList
      ipv6ProtocolNumber
      [List.replicate 15 0 ++ [1], List.replicate 10 0 ++ [255, 255, 127, 0, 0, 1]]
      80 (by decide)).1
    [] (List.replicate 15 0 ++ [1])
    [List.replicate 10 0 ++ [255, 255, 127, 0, 0, 1]] 7 rfl
    (fun q hq => absurd hq (List.not_mem_nil q)) rfl,
   (C7_confirmed sampleErrStack 0 tcpToken "localhost:80".toList
      ipv6ProtocolNumber
      [List.replicate 15 0 ++ [1], List.replicate 10 0 ++ [255, 255, 127, 0, 0, 1]]
      80 (by decide)).2
    (List.replicate 10 0 ++ [255, 255, 127, 0, 0, 1]) "closed".toList
    (fun q _ => ⟨"closed".toList, rfl⟩) (by decide) rfl⟩

/-- C9: when every candidate fails, both ListenPacket and the UDP arm of
DialContext return a structured failure whose target address is a TCP
address value (net.TCPAddr) built from the last-tried candidate and the
port, even though the failed operation is a UDP operation. -/
theorem C9_confirmed {Ctx L C P : Type} (s : Stack Ctx L C P) (ctx : Ctx)
    (network address : GoStr) (protocol : Nat) (ips : List IP) (port : Nat)
    (lastIp : IP) (e : GoStr) :
    (parseProtocolIPPort udpToken network address = .ok (protocol, ips, port) →
      (∀ q ∈ ips, ∃ e2, s.dialUDP protocol (some (q, port)) none = .error e2) →
      ips.getLast? = some lastIp →
      s.dialUDP protocol (some (lastIp, port)) none = .error e →
      s.listenPacket ctx network address =
        .error ⟨listenOp, network, some (.tcpAddr lastIp port),
          .capFmt (some e)⟩) ∧
    (∀ n, parseProtocolIPPort tcpToken network address =
        .error (.unknownNetworkError n) →
      parseProtocolIPPort udpToken network address = .ok (protocol, ips, port) →
      (∀ q ∈ ips, ∃ e2, s.dialUDP protocol none (some (q, port)) = .error e2) →
      ips.getLast? = some lastIp →
      s.dialUDP protocol none (some (lastIp, port)) = .error e →
      s.dialContext ctx network address =
        .error ⟨dialOp, network, some (.tcpAddr lastIp port),
          .cap (some e)⟩) := by
  constructor
  · intro hres hfail hlast he
    simp only [Stack.listenPacket, hres]
    rw [tryEach_all_error _ ips _ _ lastIp e hfail hlast he]
  · intro n h1 hres hfail hlast he
    simp only [Stack.dialContext, h1, hres]
    rw [tryEach_all_error _ ips _ _ lastIp e hfail hlast he]

theorem C9_witness :
    sampleErrStack.listenPacket 0 udpToken "localhost:53".toList =
      .error ⟨listenOp, udpToken,
        some (.tcpAddr (List.replicate 10 0 ++ [255, 255, 127, 0, 0, 1]) 53),
        .capFmt (some "closed".toList)⟩ ∧
    sampleErrStack.dialContext 0 udpToken "localhost:53".toList =
      .error ⟨dialOp, udpToken,
        some (.tcpAddr (List.replicate 10 0 ++ [255, 255, 127, 0, 0, 1]) 53),
        .cap (some "closed".toList)⟩ :=
  ⟨(C9_confirmed sampleErrStack 0 udpToken "localhost:53".toList
      ipv6ProtocolNumber
      [List.replicate 15 0 ++ [1], List.replicate 10 0 ++ [255, 255, 127, 0, 0, 1]]
      53 (List.replicate 10 0 ++ [255, 255, 127, 0, 0, 1]) "closed".toList).1
    (by decide) (fun q _ => ⟨"closed".toList, rfl⟩) (by decide) rfl,
   (C9_confirmed sampleErrStack 0 udpToken "localhost:53".toList
      ipv6ProtocolNumber
      [List.replicate 15 0 ++ [1], List.replicate 10 0 ++ [255, 255, 127, 0, 0, 1]]
      53 (List.replicate 10 0 ++ [255, 255, 127, 0, 0, 1]) "closed".toList).2
    udpToken (by decide) (by decide) (fun q _ => ⟨"closed".toList, rfl⟩)
    (by decide) rfl⟩

/-- C10: Listen and ListenPacket never consult their context argument: for
any two contexts, on the same stack with the same network and address
strings, the outcomes are identical. -/
theorem C10_confirmed {Ctx L C P : Type} (s : Stack Ctx L C P) (c1 c2 : Ctx)
    (network address : GoStr) :
    s.listen c1 network address = s.listen c2 network address ∧
    s.listenPacket c1 network address = s.listenPacket c2 network address :=
  ⟨rfl, rfl⟩

theorem getLast?_append_singleton (l : List Char) (c : Char) :
    (l ++ [c]).getLast? = some c := by
  rw [List.getLast?_append_cons]
  simp

/-- C8: whenever resolution succeeds (with expected protocol tag "tcp" or
"udp"), the candidate list is non-empty, and the protocol number is
consistent with the network token's suffix: a token ending in '4' yields the
IPv4 protocol and a token ending in '6' yields the IPv6 protocol. -/
theorem C8_confirmed (pfx network address : GoStr) (protocol : Nat)
    (ips : List IP) (port : Nat)
    (hpfx : pfx = tcpToken ∨ pfx = udpToken)
    (hres : parseProtocolIPPort pfx network address = .ok (protocol, ips, port)) :
    ips ≠ [] ∧
    (network.getLast? = some '4' → protocol = ipv4ProtocolNumber) ∧
    (network.getLast? = some '6' → protocol = ipv6ProtocolNumber) := by
  cases hsp : splitHostPort address with
  | error e =>
    simp only [parseProtocolIPPort, hsp] at hres
    exact Except.noConfusion hres
  | ok hp =>
    obtain ⟨host, portText⟩ := hp
    cases hpt : parseInt64 portText with
    | none =>
      simp only [parseProtocolIPPort, hsp, hpt] at hres
      exact Except.noConfusion hres
    | some p =>
      by_cases hr : 0 > p ∨ p > 65535
      · simp only [parseProtocolIPPort, hsp, hpt, if_pos hr] at hres
        exact Except.noConfusion hres
      · simp only [parseProtocolIPPort, hsp, hpt, if_neg hr] at hres
        by_cases h4 : network = pfx ++ ['4']
        · rw [if_pos h4] at hres
          by_cases hip :
              IP.to4 (parseIP (if host = localhostStr then "127.0.0.1".toList else host)) = []
          · rw [if_pos hip] at hres
            exact Except.noConfusion hres
          · rw [if_neg hip] at hres
            simp only [Except.ok.injEq, Prod.mk.injEq] at hres
            obtain ⟨h1, h2, -⟩ := hres
            refine ⟨by rw [← h2]; simp, fun _ => h1.symm, fun h6 => ?_⟩
            rw [h4, getLast?_append_singleton] at h6
            exact absurd h6 (by decide)
        · rw [if_neg h4] at hres
          by_cases hb : network = pfx
          · rw [if_pos hb] at hres
            have hgl : network.getLast? = some 'p' := by
              rcases hpfx with h | h <;> rw [hb, h] <;> decide
            have hne : ips ≠ [] := by
              by_cases hl : host = localhostStr
              · rw [if_pos hl] at hres
                simp only [Except.ok.injEq, Prod.mk.injEq] at hres
                obtain ⟨-, h2, -⟩ := hres
                rw [← h2]; simp
              · rw [if_neg hl] at hres
                by_cases hip : IP.to16 (parseIP host) = []
                · rw [if_pos hip] at hres
                  exact Except.noConfusion hres
                · rw [if_neg hip] at hres
                  simp only [Except.ok.injEq, Prod.mk.injEq] at hres
                  obtain ⟨-, h2, -⟩ := hres
                  rw [← h2]; simp
            refine ⟨hne, fun h6 => ?_, fun h6 => ?_⟩ <;>
              · rw [hgl] at h6
                exact absurd h6 (by decide)
          · rw [if_neg hb] at hres
            by_cases h6c : network = pfx ++ ['6']
            · rw [if_pos h6c] at hres
              by_cases hip :
                  IP.to16 (parseIP (if host = localhostStr then "::1".toList else host)) = []
              · rw [if_pos hip] at hres
                exact Except.noConfusion hres
              · rw [if_neg hip] at hres
                simp only [Except.ok.injEq, Prod.mk.injEq] at hres
                obtain ⟨h1, h2, -⟩ := hres
                refine ⟨by rw [← h2]; simp, fun h6 => ?_, fun _ => h1.symm⟩
                rw [h6c, getLast?_append_singleton] at h6
                exact absurd h6 (by decide)
            · rw [if_neg h6c] at hres
              exact Except.noConfusion hres

theorem C8_witness :
    (([[1, 2, 3, 4]] : List IP) ≠ [] ∧
      ("tcp4".toList.getLast? = some '4' → ipv4ProtocolNumber = ipv4ProtocolNumber) ∧
      ("tcp4".toList.getLast? = some '6' → ipv4ProtocolNumber = ipv6ProtocolNumber)) :=
  C8_confirmed tcpToken "tcp4".toList "1.2.3.4:80".toList ipv4ProtocolNumber
    [[1, 2, 3, 4]] 80 (Or.inl rfl) (by decide)

end Memipnet
